import Mathlib

/-!
Verification of the finance-flow repository's projection engine and
history/category data model against its natural-language specification.

Numbers: JavaScript `number` arithmetic is embedded as exact rational
arithmetic over `ℚ` (the standard shallow-embedding concession; none of the
verified properties depend on floating-point rounding).

Dates: JavaScript `Date` values are embedded through the ECMAScript
`MakeDay` algorithm (proleptic Gregorian calendar, epoch days since
1970-01-01), with `/` and `%` on `Int` being floor-division for the positive
literal divisors used here, exactly as ECMAScript's `floor` and `modulo`.
A `Date` produced by parsing is either a valid timestamp (`some ms`) or an
Invalid Date (`none`, whose comparisons are all false, as with NaN).
Date-valued strings are modelled in the `YYYY-MM-DD` storage format the
application uses for history points and filter bounds.
-/

/-- ECMAScript leap-year test: divisible by 4 and not by 100, or by 400. -/
def isLeapYear (y : Int) : Bool :=
  (y % 4 = 0 && y % 100 != 0) || y % 400 = 0

/-- Number of days in the months preceding month `m` (0-based, January = 0)
of a year, `leap` telling whether the year is a leap year.  This is
ECMAScript's day-within-year offset table. -/
def monthOffset (m : Int) (leap : Bool) : Int :=
  if m = 0 then 0
  else if m = 1 then 31
  else if m = 2 then 59 + (if leap then 1 else 0)
  else if m = 3 then 90 + (if leap then 1 else 0)
  else if m = 4 then 120 + (if leap then 1 else 0)
  else if m = 5 then 151 + (if leap then 1 else 0)
  else if m = 6 then 181 + (if leap then 1 else 0)
  else if m = 7 then 212 + (if leap then 1 else 0)
  else if m = 8 then 243 + (if leap then 1 else 0)
  else if m = 9 then 273 + (if leap then 1 else 0)
  else if m = 10 then 304 + (if leap then 1 else 0)
  else if m = 11 then 334 + (if leap then 1 else 0)
  else 0

/-- Number of days of 1-based calendar month `m` (January = 1). -/
def daysInMonth (m : Int) (leap : Bool) : Int :=
  if m = 2 then (if leap then 29 else 28)
  else if m = 4 ∨ m = 6 ∨ m = 9 ∨ m = 11 then 30
  else 31

/-- ECMAScript `DayFromYear`: day number of January 1 of year `y`,
counted from the epoch 1970-01-01. -/
def dayFromYear (y : Int) : Int :=
  365 * (y - 1970) + (y - 1969) / 4 - (y - 1901) / 100 + (y - 1601) / 400

/-- ECMAScript `MakeDay`: epoch day of day `d` (1-based) of 0-based month
`m` of year `y`, with month overflow normalised into the year. -/
def makeDay (y m d : Int) : Int :=
  dayFromYear (y + m / 12) + monthOffset (m % 12) (isLeapYear (y + m / 12)) + d - 1

/-- Milliseconds-since-epoch value of the local-time midnight constructed by
`new Date(y, m, d)`; `tz` is the fixed offset (in ms) between local time and
UTC, carried as an explicit model parameter. -/
def localEpochMs (tz y m d : Int) : Int :=
  makeDay y m d * 86400000 + tz

/-- Digit value of a character. -/
def digitVal (c : Char) : Int :=
  (c.toNat : Int) - ('0'.toNat : Int)

/-- Test for the `^\d{4}-\d{2}-\d{2}$` pattern used by `DateFilterSchema`. -/
def matchesYMDPattern (s : String) : Bool :=
  match s.data with
  | [a, b, c, d, h1, e, f, h2, g, k] =>
    a.isDigit && b.isDigit && c.isDigit && d.isDigit && h1 = '-' &&
    e.isDigit && f.isDigit && h2 = '-' && g.isDigit && k.isDigit
  | _ => false

/-- Semantics of `new Date(s).getTime()` for the `YYYY-MM-DD` strings the
application stores and accepts: a pattern-matching, calendar-valid string
parses to the UTC midnight timestamp of that day; anything else is an
Invalid Date (`none`), whose every comparison is false. -/
def parseJsDate (s : String) : Option Int :=
  match s.data with
  | [a, b, c, d, _, e, f, _, g, k] =>
    if (matchesYMDPattern s) then
      let y := 1000 * digitVal a + 100 * digitVal b + 10 * digitVal c + digitVal d
      let m := 10 * digitVal e + digitVal f
      let dy := 10 * digitVal g + digitVal k
      if 1 ≤ m ∧ m ≤ 12 ∧ 1 ≤ dy ∧ dy ≤ daysInMonth m (isLeapYear y) then
        some (makeDay y (m - 1) dy * 86400000)
      else none
    else none
  | _ => none

/-- JavaScript `<` on two `Date` values: false when either is Invalid. -/
def jsLt (a b : Option Int) : Bool :=
  match a, b with
  | some x, some y => decide (x < y)
  | _, _ => false

/-- JavaScript `>` on two `Date` values: false when either is Invalid. -/
def jsGt (a b : Option Int) : Bool :=
  match a, b with
  | some x, some y => decide (y < x)
  | _, _ => false

theorem monthOffset_bounds (m : Int) (l : Bool) (h0 : 0 ≤ m) (h1 : m ≤ 11) :
    0 ≤ monthOffset m l ∧ monthOffset m l ≤ 335 := by
  have hm : m = 0 ∨ m = 1 ∨ m = 2 ∨ m = 3 ∨ m = 4 ∨ m = 5 ∨ m = 6 ∨ m = 7 ∨
      m = 8 ∨ m = 9 ∨ m = 10 ∨ m = 11 := by omega
  rcases hm with h | h | h | h | h | h | h | h | h | h | h | h <;> subst h <;>
    cases l <;> decide

theorem monthOffset_add_nine (m : Int) (l : Bool) (h0 : 0 ≤ m) (h1 : m ≤ 2) :
    monthOffset m l ≤ monthOffset (m + 9) l := by
  have hm : m = 0 ∨ m = 1 ∨ m = 2 := by omega
  rcases hm with h | h | h <;> subst h <;> cases l <;> decide

theorem dayFromYear_step (y : Int) : dayFromYear (y - 1) + 365 ≤ dayFromYear y := by
  unfold dayFromYear
  omega

/-- Calendar fact behind filter-period monotonicity: going back three
calendar months from any day never reaches further back than going back a
whole calendar year from the same day. -/
theorem makeDay_one_year_le_three_months (y m d : Int) (h0 : 0 ≤ m) (h1 : m ≤ 11) :
    makeDay (y - 1) m d ≤ makeDay y (m - 3) d := by
  unfold makeDay
  by_cases h3 : 3 ≤ m
  · rw [(show (m - 3) / 12 = 0 by omega), (show (m - 3) % 12 = m - 3 by omega),
      (show m / 12 = 0 by omega), (show m % 12 = m by omega)]
    simp only [add_zero]
    have hstep := dayFromYear_step y
    have hb1 := (monthOffset_bounds m (isLeapYear (y - 1)) (by omega) (by omega)).2
    have hb2 := (monthOffset_bounds (m - 3) (isLeapYear y) (by omega) (by omega)).1
    omega
  · rw [(show (m - 3) / 12 = -1 by omega), (show (m - 3) % 12 = m + 9 by omega),
      (show m / 12 = 0 by omega), (show m % 12 = m by omega)]
    simp only [add_zero, (show ∀ z : Int, z + -1 = z - 1 from fun z => by omega)]
    have hmono := monthOffset_add_nine m (isLeapYear (y - 1)) (by omega) (by omega)
    omega

/-!
Data model (from `financesDataService.ts`): `FinanceCategory`,
`FinanceHistoryPoint` and `FinancesData`.  A JavaScript object used as a
string-keyed record is embedded as an association list with the usual
first-match lookup; the service schema keeps keys unique in practice, and
the operations below mirror JS property get / set / delete semantics.
-/

/-- Category record: `{ name, color }`. -/
structure FinanceCategory where
  name : String
  color : String
deriving DecidableEq, Repr

/-- Partial category update (`Partial<FinanceCategory>`): optional fields. -/
structure CategoryPatch where
  name : Option String
  color : Option String
deriving DecidableEq, Repr

/-- History point: `{ date, data }` with `data` a category-name-keyed record
of balances. -/
structure FinanceHistoryPoint where
  date : String
  data : List (String × ℚ)
deriving DecidableEq, Repr

/-- Whole persisted document: `{ categories, history, lastUpdated? }`. -/
structure FinancesData where
  categories : List FinanceCategory
  history : List FinanceHistoryPoint
  lastUpdated : Option String
deriving DecidableEq, Repr

/-- JS property read `obj[k]`: value of the first binding of `k`. -/
def objGet (k : String) : List (String × ℚ) → Option ℚ
  | [] => none
  | (k', v) :: rest => if k' = k then some v else objGet k rest

/-- JS property write `obj[k] = v`: overwrite the first binding of `k` in
place, or append a fresh binding. -/
def objSet (k : String) (v : ℚ) : List (String × ℚ) → List (String × ℚ)
  | [] => [(k, v)]
  | (k', v') :: rest => if k' = k then (k, v) :: rest else (k', v') :: objSet k v rest

/-- JS property removal `delete obj[k]`. -/
def objDelete (k : String) (l : List (String × ℚ)) : List (String × ℚ) :=
  l.filter (fun p => p.1 ≠ k)

theorem objGet_objSet_self (k : String) (v : ℚ) (l : List (String × ℚ)) :
    objGet k (objSet k v l) = some v := by
  induction l with
  | nil => simp [objGet, objSet]
  | cons p rest ih =>
    obtain ⟨a, b⟩ := p
    by_cases h : a = k
    · simp [objSet, objGet, h]
    · simp only [objSet, objGet, h, if_false, ih]

theorem objGet_objDelete_ne (k k' : String) (l : List (String × ℚ)) (h : k' ≠ k) :
    objGet k (objDelete k' l) = objGet k l := by
  induction l with
  | nil => simp [objGet, objDelete]
  | cons p rest ih =>
    obtain ⟨a, b⟩ := p
    by_cases hp : a = k'
    · have hk : ¬a = k := by rw [hp]; exact h
      simp only [objDelete, List.filter_cons] at ih ⊢
      rw [(show (decide (a ≠ k')) = false by simp [hp])]
      simp only [Bool.false_eq_true, if_false, objGet, hk, ih]
    · simp only [objDelete, List.filter_cons] at ih ⊢
      rw [(show (decide (a ≠ k')) = true by simp [hp])]
      by_cases hk : a = k
      · simp [objGet, hk]
      · simp only [if_true, objGet, hk, if_false, ih]

/-!
History filter (from the finances router in `FileFinancesRepository.ts`,
second document: `DateFilterSchema` and `filterHistoryData`).

`DateFilterSchema` validates `from` and `to` only against the
`^\d{4}-\d{2}-\d{2}$` regex — there is no calendar-validity refinement —
and `period` against the enum `'3months' | '1year' | 'all'` (an invalid
enum value is rejected by the schema; the embedding types it).
-/

/-- Named relative filter period. -/
inductive FilterPeriod where
  | threeMonths
  | oneYear
  | all
deriving DecidableEq, Repr

/-- Raw `from`/`to`/`period` query parameters after enum typing. -/
structure DateFilters where
  fromStr : Option String
  toStr : Option String
  period : Option FilterPeriod
deriving DecidableEq, Repr

/-- Validation performed by `DateFilterSchema` on `from`/`to`: an absent
field passes; a present field passes iff it matches the date regex.  This is
the entire validation — calendar validity is not checked. -/
def dateFilterSchemaAccepts (f : DateFilters) : Bool :=
  (match f.fromStr with | none => true | some s => matchesYMDPattern s) &&
  (match f.toStr with | none => true | some s => matchesYMDPattern s)

/-- Current-clock values the filter reads: `getFullYear()`, `getMonth()`
(0-based), `getDate()`, and the full `getTime()` of `new Date()`. -/
structure JsNow where
  year : Int
  month : Int
  day : Int
  nowMs : Int
deriving DecidableEq, Repr

/-- Embedding of `filterHistoryData(history, filters)`: resolves the bounds
(`period` takes precedence, `'all'` returns the list unchanged) and keeps a
record unless it is `<` the lower bound or `>` the upper bound, with
JavaScript `Date` comparison semantics (`tz` is the local-time offset used
by `new Date(y, m, d)`). -/
def filterHistoryData (tz : Int) (now : JsNow) (history : List FinanceHistoryPoint)
    (filters : DateFilters) : List FinanceHistoryPoint :=
  if filters.fromStr = none ∧ filters.toStr = none ∧ filters.period = none then history
  else
    match filters.period with
    | some FilterPeriod.all => history
    | some FilterPeriod.threeMonths =>
      history.filter fun r =>
        !(jsLt (parseJsDate r.date) (some (localEpochMs tz now.year (now.month - 3) now.day))) &&
        !(jsGt (parseJsDate r.date) (some now.nowMs))
    | some FilterPeriod.oneYear =>
      history.filter fun r =>
        !(jsLt (parseJsDate r.date) (some (localEpochMs tz (now.year - 1) now.month now.day))) &&
        !(jsGt (parseJsDate r.date) (some now.nowMs))
    | none =>
      history.filter fun r =>
        (match filters.fromStr with
         | none => true
         | some s => !(jsLt (parseJsDate r.date) (parseJsDate s))) &&
        (match filters.toStr with
         | none => true
         | some s => !(jsGt (parseJsDate r.date) (parseJsDate s)))

/-- Outcome of `GET /history`: the route validates the query parameters with
`DateFilterSchema` first and only then filters; a schema failure is a 400
validation error. -/
def historyEndpoint (tz : Int) (now : JsNow) (data : FinancesData)
    (filters : DateFilters) : Option (List FinanceHistoryPoint) :=
  if dateFilterSchemaAccepts filters then
    some (filterHistoryData tz now data.history filters)
  else none

/-!
Growth-rate estimator (from `routes/projections.ts`, `calculateGrowthRate`).
Dates reach this function only through `getTime()` differences, so they are
embedded directly as millisecond timestamps in `ℚ`.
-/

/-- Result `{ monthlyRate, annualRate }` of the estimator. -/
structure GrowthRate where
  monthlyRate : ℚ
  annualRate : ℚ
deriving DecidableEq, Repr

/-- Clamp `x` to `[lo, hi]`, exactly `Math.max(lo, Math.min(hi, x))`. -/
def clamp (lo hi x : ℚ) : ℚ :=
  max lo (min hi x)

/-- Loop of `calculateGrowthRate`: for `i = 1 .. values.length - 1`, when
`values[i-1] > 0`, push the month-over-month fractional growth clamped to
±50%. -/
def monthlyGrowths : List ℚ → List ℚ
  | a :: b :: rest =>
    (if 0 < a then [clamp (-(1/2)) (1/2) ((b - a) / a)] else []) ++ monthlyGrowths (b :: rest)
  | _ => []

/-- Median selection applied by the source to an already ascending list:
`medianIndex = floor(n/2)`; even-length lists average the two central
entries. -/
def medianOfSorted (l : List ℚ) : ℚ :=
  if l.length % 2 = 0 then (l.getD (l.length / 2 - 1) 0 + l.getD (l.length / 2) 0) / 2
  else l.getD (l.length / 2) 0

/-- Sort ascending (the `(a, b) => a - b` comparator) and take the median. -/
def jsMedian (l : List ℚ) : ℚ :=
  medianOfSorted (List.insertionSort (· ≤ ·) l)

/-- Embedding of `calculateGrowthRate(values, dates)`.  The source's control
flow — enter the robust branch when `values.length >= 6`, return its median
when at least one eligible pair existed, otherwise fall through — is the
single guard `6 ≤ length ∧ growths ≠ []` here. -/
def calculateGrowthRate (values : List ℚ) (dates : List ℚ) : GrowthRate :=
  if values.length < 2 then ⟨0, 0⟩
  else if 6 ≤ values.length ∧ monthlyGrowths values ≠ [] then
    ⟨jsMedian (monthlyGrowths values), jsMedian (monthlyGrowths values) * 12⟩
  else
    if (dates.getLastD 0 - dates.headD 0) / (86400000 * (761 / 25)) ≤ 0 ∨ values.headD 0 ≤ 0 then
      ⟨0, 0⟩
    else
      ⟨clamp (-(1/10)) (1/10) ((values.getLastD 0 - values.headD 0) /
         (values.headD 0 * ((dates.getLastD 0 - dates.headD 0) / (86400000 * (761 / 25))))),
       clamp (-(1/10)) (1/10) ((values.getLastD 0 - values.headD 0) /
         (values.headD 0 * ((dates.getLastD 0 - dates.headD 0) / (86400000 * (761 / 25))))) * 12⟩

/-!
Reference definition of the estimator, written from the specification's
words (robust path: clamped fractional growths of every adjacent pair with
a strictly positive previous value, then their median; fallback: first/last
pair over `monthsDiff` at 30.44 days per month, clamped to ±10%).
-/

/-- Clamped per-step growths of the specification: one entry per adjacent
pair of `values` whose previous value is strictly positive. -/
def clampedGrowthsSpec (values : List ℚ) : List ℚ :=
  (values.zip values.tail).filterMap fun p =>
    if 0 < p.1 then some (max (-(1/2)) (min (1/2) ((p.2 - p.1) / p.1))) else none

/-- Median per the specification: sort ascending; odd count takes the middle
entry, even count averages the two central entries. -/
def medianSpec (l : List ℚ) : ℚ :=
  let s := List.insertionSort (· ≤ ·) l
  if s.length % 2 = 1 then s.getD (s.length / 2) 0
  else (s.getD (s.length / 2 - 1) 0 + s.getD (s.length / 2) 0) / 2

/-- Growth-rate estimator as the specification words it. -/
def calculateGrowthRateSpec (values : List ℚ) (dates : List ℚ) : GrowthRate :=
  if values.length < 2 then ⟨0, 0⟩
  else if 6 ≤ values.length ∧ clampedGrowthsSpec values ≠ [] then
    ⟨medianSpec (clampedGrowthsSpec values), medianSpec (clampedGrowthsSpec values) * 12⟩
  else
    if (dates.getLastD 0 - dates.headD 0) / (86400000 * (761 / 25)) ≤ 0 ∨ values.headD 0 ≤ 0 then
      ⟨0, 0⟩
    else
      ⟨clamp (-(1/10)) (1/10) ((values.getLastD 0 - values.headD 0) /
         (values.headD 0 * ((dates.getLastD 0 - dates.headD 0) / (86400000 * (761 / 25))))),
       clamp (-(1/10)) (1/10) ((values.getLastD 0 - values.headD 0) /
         (values.headD 0 * ((dates.getLastD 0 - dates.headD 0) / (86400000 * (761 / 25))))) * 12⟩

theorem monthlyGrowths_eq_spec (values : List ℚ) :
    monthlyGrowths values = clampedGrowthsSpec values := by
  induction values with
  | nil => rfl
  | cons a rest ih =>
    cases rest with
    | nil => rfl
    | cons b rest' =>
      simp only [monthlyGrowths, clampedGrowthsSpec, List.tail_cons, List.zip_cons_cons,
        List.filterMap_cons] at ih ⊢
      by_cases h : 0 < a
      · simp only [h, if_true, List.singleton_append, clamp]
        rw [ih]
      · simp only [h, if_false, List.nil_append]
        rw [ih]

theorem jsMedian_eq_spec (l : List ℚ) : jsMedian l = medianSpec l := by
  unfold jsMedian medianSpec medianOfSorted
  by_cases h : (List.insertionSort (· ≤ ·) l).length % 2 = 0
  · rw [if_pos h, if_neg (by omega)]
  · rw [if_neg h, if_pos (by omega)]

theorem clamp_bounds (lo hi x : ℚ) (h : lo ≤ hi) :
    lo ≤ clamp lo hi x ∧ clamp lo hi x ≤ hi := by
  unfold clamp
  exact ⟨le_max_left lo _, max_le h (min_le_left hi x)⟩

theorem monthlyGrowths_bounds (values : List ℚ) :
    ∀ g ∈ monthlyGrowths values, -(1/2) ≤ g ∧ g ≤ 1/2 := by
  induction values with
  | nil => intro g hg; simp [monthlyGrowths] at hg
  | cons a rest ih =>
    cases rest with
    | nil => intro g hg; simp [monthlyGrowths] at hg
    | cons b rest' =>
      intro g hg
      simp only [monthlyGrowths, List.mem_append] at hg
      rcases hg with hg | hg
      · by_cases hpos : 0 < a
        · rw [if_pos hpos] at hg
          simp only [List.mem_singleton] at hg
          subst hg
          exact clamp_bounds _ _ _ (by norm_num)
        · rw [if_neg hpos] at hg
          simp at hg
      · exact ih g hg

theorem getD_mem_of_lt {l : List ℚ} {i : Nat} (h : i < l.length) : l.getD i 0 ∈ l := by
  rw [List.getD_eq_getElem?_getD, List.getElem?_eq_getElem h, Option.getD_some]
  exact List.getElem_mem h

theorem medianOfSorted_bounds (l : List ℚ) (lo hi : ℚ) (hne : l ≠ [])
    (h : ∀ x ∈ l, lo ≤ x ∧ x ≤ hi) :
    lo ≤ medianOfSorted l ∧ medianOfSorted l ≤ hi := by
  have hlen : 0 < l.length := List.length_pos.mpr hne
  unfold medianOfSorted
  by_cases hp : l.length % 2 = 0
  · rw [if_pos hp]
    have h1 : l.length / 2 - 1 < l.length := by omega
    have h2 : l.length / 2 < l.length := by omega
    have m1 := h _ (getD_mem_of_lt h1)
    have m2 := h _ (getD_mem_of_lt h2)
    constructor
    · linarith [m1.1, m2.1]
    · linarith [m1.2, m2.2]
  · rw [if_neg hp]
    exact h _ (getD_mem_of_lt (by omega))

theorem jsMedian_bounds (l : List ℚ) (lo hi : ℚ) (hne : l ≠ [])
    (h : ∀ x ∈ l, lo ≤ x ∧ x ≤ hi) :
    lo ≤ jsMedian l ∧ jsMedian l ≤ hi := by
  unfold jsMedian
  have hp := List.perm_insertionSort (· ≤ ·) l
  refine medianOfSorted_bounds _ lo hi ?_ ?_
  · intro he
    apply hne
    have hlen := hp.length_eq
    rw [he] at hlen
    exact List.eq_nil_of_length_eq_zero hlen.symm
  · intro x hx
    exact h x (hp.mem_iff.mp hx)

/-- C1: the growth-rate estimator agrees everywhere with the
specification's reference definition (insufficient-signal zero for fewer
than 2 values; clamped-median robust path for at least 6 values with an
eligible pair; first/last fallback with `monthsDiff` at 30.44 days per
month otherwise; `annualRate = monthlyRate × 12` throughout), and the
monthly rate is within ±50% whenever the robust path is used and within
±10% whenever the fallback is used. -/
theorem calculateGrowthRate_meets_spec (values dates : List ℚ) :
    calculateGrowthRate values dates = calculateGrowthRateSpec values dates ∧
    (6 ≤ values.length → monthlyGrowths values ≠ [] →
      |(calculateGrowthRate values dates).monthlyRate| ≤ 1/2) ∧
    (¬(6 ≤ values.length ∧ monthlyGrowths values ≠ []) →
      |(calculateGrowthRate values dates).monthlyRate| ≤ 1/10) := by
  refine ⟨?_, ?_, ?_⟩
  · unfold calculateGrowthRate calculateGrowthRateSpec
    simp only [monthlyGrowths_eq_spec, jsMedian_eq_spec]
  · intro h6 hne
    unfold calculateGrowthRate
    rw [if_neg (by omega), if_pos ⟨h6, hne⟩]
    exact abs_le.mpr
      ⟨(jsMedian_bounds _ _ _ hne (monthlyGrowths_bounds values)).1,
       (jsMedian_bounds _ _ _ hne (monthlyGrowths_bounds values)).2⟩
  · intro hnr
    unfold calculateGrowthRate
    split_ifs with hA hB
    · norm_num
    · norm_num
    · exact abs_le.mpr (clamp_bounds _ _ _ (by norm_num))

theorem calculateGrowthRate_meets_spec_witness :
    calculateGrowthRate [1000, 1010, 1020, 1030, 5000, 1050] [0, 1, 2, 3, 4, 5] =
      calculateGrowthRateSpec [1000, 1010, 1020, 1030, 5000, 1050] [0, 1, 2, 3, 4, 5] ∧
    |(calculateGrowthRate [1000, 1010, 1020, 1030, 5000, 1050] [0, 1, 2, 3, 4, 5]).monthlyRate| ≤ 1/2 ∧
    |(calculateGrowthRate [100, 200] [0, 1]).monthlyRate| ≤ 1/10 :=
  ⟨(calculateGrowthRate_meets_spec [1000, 1010, 1020, 1030, 5000, 1050] [0, 1, 2, 3, 4, 5]).1,
   (calculateGrowthRate_meets_spec [1000, 1010, 1020, 1030, 5000, 1050]
      [0, 1, 2, 3, 4, 5]).2.1 (by decide) (by decide),
   (calculateGrowthRate_meets_spec [100, 200] [0, 1]).2.2 (by decide)⟩

/-!
Projection generator (from `routes/projections.ts`, `generateProjections`).
A JS `Date` is viewed here through its calendar components, since the loop
manipulates the date only via `setMonth(getMonth() + i)`.
-/

/-- Calendar components (year, 0-based month, day-of-month) of a JS `Date`. -/
structure JsDateParts where
  year : Int
  month : Int
  day : Int
deriving DecidableEq, Repr

/-- Date arithmetic `new Date(lastDate)` followed by
`setMonth(getMonth() + i)`: add `i` calendar months. -/
def addCalendarMonths (d : JsDateParts) (i : Int) : JsDateParts :=
  { d with month := d.month + i }

/-- One projected point `{ date, value }`. -/
structure ProjPoint where
  date : JsDateParts
  value : ℚ
deriving DecidableEq, Repr

/-- Embedding of `generateProjections(lastValue, lastDate, monthlyRate,
projectionMonths)`: the loop `i = 1 .. projectionMonths` pushing
`{ lastDate + i months, max(0, lastValue * (1 + monthlyRate * i)) }`. -/
def generateProjections (lastValue : ℚ) (lastDate : JsDateParts) (monthlyRate : ℚ)
    (projectionMonths : Nat) : List ProjPoint :=
  (List.range projectionMonths).map fun (j : Nat) =>
    ⟨addCalendarMonths lastDate ((j : Int) + 1),
     max 0 (lastValue * (1 + monthlyRate * ((j : ℚ) + 1)))⟩

/-- C2: the generator returns exactly `n` points; the `i`-th point
(0-indexed `i`, step `i+1`) is dated `lastDate` plus `i+1` calendar months
with value `max(0, lastValue × (1 + monthlyRate × (i+1)))`, computed
directly from the anchor value and step index; consequently every generated
value is nonnegative, whatever the monthly rate. -/
theorem generateProjections_spec (lastValue : ℚ) (lastDate : JsDateParts)
    (monthlyRate : ℚ) (n : Nat) :
    (generateProjections lastValue lastDate monthlyRate n).length = n ∧
    (∀ i : Nat, i < n →
      (generateProjections lastValue lastDate monthlyRate n).getD i ⟨lastDate, 0⟩ =
        ⟨addCalendarMonths lastDate ((i : Int) + 1),
         max 0 (lastValue * (1 + monthlyRate * ((i : ℚ) + 1)))⟩) ∧
    (∀ p ∈ generateProjections lastValue lastDate monthlyRate n, 0 ≤ p.value) := by
  refine ⟨by unfold generateProjections; rw [List.length_map, List.length_range], ?_, ?_⟩
  · intro i hi
    unfold generateProjections
    rw [List.getD_eq_getElem?_getD,
      List.getElem?_eq_getElem (by rw [List.length_map, List.length_range]; exact hi),
      Option.getD_some, List.getElem_map, List.getElem_range]
  · intro p hp
    unfold generateProjections at hp
    simp only [List.mem_map] at hp
    obtain ⟨j, hj, rfl⟩ := hp
    exact le_max_left 0 _

theorem generateProjections_spec_witness :
    (generateProjections 1000 ⟨2024, 0, 15⟩ (1/20) 3).getD 1 ⟨⟨2024, 0, 15⟩, 0⟩ =
      ⟨addCalendarMonths ⟨2024, 0, 15⟩ (((1 : Nat) : Int) + 1),
       max 0 (1000 * (1 + 1/20 * (((1 : Nat) : ℚ) + 1)))⟩ :=
  (generateProjections_spec 1000 ⟨2024, 0, 15⟩ (1/20) 3).2.1 1 (by decide)

/-!
Projection configuration (from `routes/projections.ts`,
`ProjectionConfigSchema`).  `z.coerce.number()` turns the string query
parameter into its numeric value (abstracted here as the already-coerced
optional rational); `.min`/`.max` are zod validators that fail the parse on
out-of-range values, and `.default` fills in absent ones.
-/

/-- Validation applied by `z.coerce.number().min(lo).max(hi).default(dflt)`:
absent means the default; a present out-of-range value is a parse failure
(zod `min`/`max` check, they never clamp). -/
def zodNumberMinMax (lo hi dflt : ℚ) : Option ℚ → Except Unit ℚ
  | none => Except.ok dflt
  | some x => if x < lo then Except.error () else if hi < x then Except.error () else Except.ok x

/-- Embedding of `ProjectionConfigSchema.parse` on the two query fields
`calculationPeriodMonths` and `projectionPeriodMonths`. -/
def projectionConfigParse (calcP projP : Option ℚ) : Except Unit (ℚ × ℚ) :=
  match zodNumberMinMax 3 24 12 calcP, zodNumberMinMax 3 60 12 projP with
  | Except.ok a, Except.ok b => Except.ok (a, b)
  | _, _ => Except.error ()

/-- Configuration handling as the specification words it — clamping an
out-of-range supplied value to the nearest bound and proceeding — stated
for comparison with the code's validating behaviour. -/
def projectionConfigClampedSpec (calcP projP : Option ℚ) : ℚ × ℚ :=
  (clamp 3 24 (calcP.getD 12), clamp 3 60 (projP.getD 12))

/-- C4 (counterexample): a supplied `calculationPeriodMonths` of 2 makes
the schema parse fail with a validation error, whereas the claimed clamping
behaviour would proceed with the nearest bound 3 (and default 12). -/
theorem projectionConfig_clamp_counterexample :
    projectionConfigParse (some 2) none = Except.error () ∧
    projectionConfigClampedSpec (some 2) none = (3, 12) := by
  constructor
  · rfl
  · unfold projectionConfigClampedSpec clamp
    rw [(show ((some (2:ℚ)).getD 12) = 2 from rfl), (show ((none : Option ℚ).getD 12) = 12 from rfl),
      min_eq_right (by norm_num : (2:ℚ) ≤ 24), max_eq_left (by norm_num : (2:ℚ) ≤ 3),
      min_eq_right (by norm_num : (12:ℚ) ≤ 60), max_eq_right (by norm_num : (3:ℚ) ≤ 12)]

/-- C4 (amended): the two config parameters are coerced and then validated
against `[3,24]` and `[3,60]` — absent fields default to 12, in-range
values pass through unchanged, and an out-of-range value is rejected with a
validation failure rather than clamped. -/
theorem projectionConfig_validation_spec (x y : ℚ) :
    projectionConfigParse none none = Except.ok (12, 12) ∧
    (3 ≤ x ∧ x ≤ 24 → projectionConfigParse (some x) none = Except.ok (x, 12)) ∧
    (x < 3 ∨ 24 < x → projectionConfigParse (some x) none = Except.error ()) ∧
    (3 ≤ y ∧ y ≤ 60 → projectionConfigParse none (some y) = Except.ok (12, y)) ∧
    (y < 3 ∨ 60 < y → projectionConfigParse none (some y) = Except.error ()) ∧
    (3 ≤ x ∧ x ≤ 24 ∧ 3 ≤ y ∧ y ≤ 60 →
      projectionConfigParse (some x) (some y) = Except.ok (x, y)) := by
  refine ⟨rfl, ?_, ?_, ?_, ?_, ?_⟩
  · intro h
    simp only [projectionConfigParse, zodNumberMinMax]
    rw [if_neg (not_lt.mpr h.1), if_neg (not_lt.mpr h.2)]
  · intro h
    simp only [projectionConfigParse, zodNumberMinMax]
    rcases h with h | h
    · rw [if_pos h]
    · rw [if_neg (not_lt.mpr (by linarith)), if_pos h]
  · intro h
    simp only [projectionConfigParse, zodNumberMinMax]
    rw [if_neg (not_lt.mpr h.1), if_neg (not_lt.mpr h.2)]
  · intro h
    simp only [projectionConfigParse, zodNumberMinMax]
    rcases h with h | h
    · rw [if_pos h]
    · rw [if_neg (not_lt.mpr (by linarith)), if_pos h]
  · intro h
    simp only [projectionConfigParse, zodNumberMinMax]
    rw [if_neg (not_lt.mpr h.1), if_neg (not_lt.mpr h.2.1),
      if_neg (not_lt.mpr h.2.2.1), if_neg (not_lt.mpr h.2.2.2)]

theorem projectionConfig_validation_spec_witness :
    projectionConfigParse (some 5) none = Except.ok (5, 12) ∧
    projectionConfigParse (some 2) none = Except.error () ∧
    projectionConfigParse none (some 61) = Except.error () :=
  ⟨(projectionConfig_validation_spec 5 5).2.1 ⟨by decide, by decide⟩,
   (projectionConfig_validation_spec 2 5).2.2.1 (Or.inl (by decide)),
   (projectionConfig_validation_spec 5 61).2.2.2.2.1 (Or.inr (by decide))⟩

/-!
Service layer (from `financesDataService.ts`, the repository-backed
`FinancesDataService`): `addCategory`, `updateCategory`, `addHistoryPoint`.
Each operation reads the stored document, applies the in-memory change and
writes the whole document back; a thrown `ApiError` aborts before the
write, leaving the stored document untouched.  `nowIso` stands for the
`new Date().toISOString()` value stamped into `lastUpdated`.
-/

/-- Error codes of the `ApiError`s thrown by the service operations. -/
inductive ServiceError where
  | duplicateCategory
  | categoryNotFound
deriving DecidableEq, Repr

/-- Embedding of `FinancesDataService.addCategory`: reject a duplicate name
before touching the document, otherwise append and stamp `lastUpdated`. -/
def FinancesDataService.addCategory (doc : FinancesData) (category : FinanceCategory)
    (nowIso : String) : Except ServiceError FinancesData :=
  if doc.categories.any (fun c => c.name = category.name) then
    Except.error ServiceError.duplicateCategory
  else
    Except.ok { doc with categories := doc.categories ++ [category], lastUpdated := some nowIso }

/-- State transition of `addCategory` on the persisted document: the write
happens only on the success path, so the error path returns the stored
document unchanged together with the raised code. -/
def FinancesDataService.addCategoryStep (stored : FinancesData) (category : FinanceCategory)
    (nowIso : String) : FinancesData × Option ServiceError :=
  match FinancesDataService.addCategory stored category nowIso with
  | Except.error e => (stored, some e)
  | Except.ok d => (d, none)

/-- Spread-merge `{ ...category, ...updates }` of a partial update. -/
def applyPatch (c : FinanceCategory) (p : CategoryPatch) : FinanceCategory :=
  { name := p.name.getD c.name, color := p.color.getD c.color }

/-- Embedding of `FinancesDataService.updateCategory`: find the category by
name (404 when absent), merge the patch over it in place, stamp
`lastUpdated`, and write.  The history list is not touched. -/
def FinancesDataService.updateCategory (doc : FinancesData) (categoryName : String)
    (updates : CategoryPatch) (nowIso : String) : Except ServiceError FinancesData :=
  match doc.categories.findIdx? (fun c => c.name = categoryName) with
  | none => Except.error ServiceError.categoryNotFound
  | some i =>
    Except.ok { doc with
      categories := doc.categories.set i (applyPatch (doc.categories.getD i ⟨"", ""⟩) updates),
      lastUpdated := some nowIso }

/-- Sort key of the history comparator
`(a, b) => new Date(a.date).getTime() - new Date(b.date).getTime()`
(history dates are schema-validated to parse, so the Invalid-Date default
is never reached on service-managed data). -/
def jsTimeKey (r : FinanceHistoryPoint) : Int :=
  (parseJsDate r.date).getD 0

/-- In-place replacement `history[existingPointIndex] = historyPoint` at the
first index whose `date` string equals the new point's. -/
def replaceFirstByDate : List FinanceHistoryPoint → FinanceHistoryPoint → List FinanceHistoryPoint
  | [], _ => []
  | r :: rest, hp => if r.date = hp.date then hp :: rest else r :: replaceFirstByDate rest hp

/-- Embedding of `FinancesDataService.addHistoryPoint`: upsert by exact date
string — replace the existing point in place, or push the new point and
sort the whole history ascending by parsed date (JS `Array.prototype.sort`
is stable, as is insertion sort). -/
def FinancesDataService.addHistoryPoint (doc : FinancesData) (hp : FinanceHistoryPoint)
    (nowIso : String) : FinancesData :=
  if doc.history.any (fun p => p.date = hp.date) then
    { doc with history := replaceFirstByDate doc.history hp, lastUpdated := some nowIso }
  else
    { doc with
      history := List.insertionSort (fun a b => jsTimeKey a ≤ jsTimeKey b) (doc.history ++ [hp]),
      lastUpdated := some nowIso }

/-- Ascending-by-date ordering of a history list (by parsed timestamp). -/
def historyAscending (l : List FinanceHistoryPoint) : Prop :=
  l.Pairwise (fun a b => jsTimeKey a ≤ jsTimeKey b)

instance : IsTotal FinanceHistoryPoint (fun a b => jsTimeKey a ≤ jsTimeKey b) :=
  ⟨fun a b => le_total (jsTimeKey a) (jsTimeKey b)⟩

instance : IsTrans FinanceHistoryPoint (fun a b => jsTimeKey a ≤ jsTimeKey b) :=
  ⟨fun _ _ _ hab hbc => le_trans hab hbc⟩

/-- Hexadecimal digit test for the color regex. -/
def isHexDigit (c : Char) : Bool :=
  c.isDigit || ('A' ≤ c && c ≤ 'F') || ('a' ≤ c && c ≤ 'f')

/-- The `^#[0-9A-F]{6}$/i` color validation. -/
def colorValid (s : String) : Bool :=
  match s.data with
  | '#' :: rest => rest.length = 6 && rest.all isHexDigit
  | _ => false

/-- `FinanceCategoryInfoSchema`: name of 1–100 characters, valid color. -/
def categoryValid (c : FinanceCategory) : Bool :=
  decide (1 ≤ c.name.length) && decide (c.name.length ≤ 100) && colorValid c.color

/-- `FinanceHistoryPointSchema`: a parseable date string and a record of
nonnegative balances under nonempty keys. -/
def historyPointValid (hp : FinanceHistoryPoint) : Bool :=
  (parseJsDate hp.date).isSome &&
  hp.data.all (fun p => decide (1 ≤ p.1.length) && decide ((0:ℚ) ≤ p.2))

/-- `FinancesDataSchema` of the service module (no array-length minimums,
optional `lastUpdated`, and no ordering constraint on `history`). -/
def financesDataValid (doc : FinancesData) : Bool :=
  doc.categories.all categoryValid && doc.history.all historyPointValid

/-- Embedding of `PUT /data`: the request body is validated against
`FinancesDataSchema` and then written verbatim through
`writeFinancesData` — nothing re-sorts `history`. -/
def putDataEndpoint (body : FinancesData) : Option FinancesData :=
  if financesDataValid body then some body else none

theorem replaceFirstByDate_key (l : List FinanceHistoryPoint) (hp b : FinanceHistoryPoint)
    (hb : b ∈ replaceFirstByDate l hp) : ∃ a ∈ l, jsTimeKey b = jsTimeKey a := by
  induction l with
  | nil => simp [replaceFirstByDate] at hb
  | cons r rest ih =>
    by_cases hd : r.date = hp.date
    · rw [replaceFirstByDate, if_pos hd] at hb
      rcases List.mem_cons.mp hb with hb | hb
      · exact ⟨r, List.mem_cons_self r rest, by rw [hb]; unfold jsTimeKey; rw [hd]⟩
      · exact ⟨b, List.mem_cons_of_mem r hb, rfl⟩
    · rw [replaceFirstByDate, if_neg hd] at hb
      rcases List.mem_cons.mp hb with hb | hb
      · exact ⟨r, List.mem_cons_self r rest, by rw [hb]⟩
      · obtain ⟨a, ha, hk⟩ := ih hb
        exact ⟨a, List.mem_cons_of_mem r ha, hk⟩

theorem pairwise_replaceFirstByDate (l : List FinanceHistoryPoint) (hp : FinanceHistoryPoint)
    (h : l.Pairwise (fun a b => jsTimeKey a ≤ jsTimeKey b)) :
    (replaceFirstByDate l hp).Pairwise (fun a b => jsTimeKey a ≤ jsTimeKey b) := by
  induction l with
  | nil => exact List.Pairwise.nil
  | cons r rest ih =>
    rw [List.pairwise_cons] at h
    by_cases hd : r.date = hp.date
    · rw [replaceFirstByDate, if_pos hd]
      rw [List.pairwise_cons]
      refine ⟨fun b hb => ?_, h.2⟩
      have : jsTimeKey hp = jsTimeKey r := by unfold jsTimeKey; rw [hd]
      rw [this]
      exact h.1 b hb
    · rw [replaceFirstByDate, if_neg hd]
      rw [List.pairwise_cons]
      refine ⟨fun b hb => ?_, ih h.2⟩
      obtain ⟨a, ha, hk⟩ := replaceFirstByDate_key rest hp b hb
      rw [hk]
      exact h.1 a ha

/-!
Frontend Data-page category update (from the `Data` component's
`updateCategory`): unlike the backend service, it migrates history entries
when the name changes.
-/

/-- Migration of a single history record for a rename `oldName → newName`:
skip records without the old key, otherwise copy the balance to the new key
and delete the old one. -/
def migrateRecord (oldName newName : String) (r : FinanceHistoryPoint) : FinanceHistoryPoint :=
  if (objGet oldName r.data).isSome then
    { r with data := objDelete oldName (objSet newName ((objGet oldName r.data).getD 0) r.data) }
  else r

/-- Embedding of the Data page's `updateCategory(index, updatedCategory)`:
replace the category at `index`; when the name actually changed, also
migrate every history record. -/
def dataPageUpdateCategory (doc : FinancesData) (index : Nat)
    (updated : FinanceCategory) : FinancesData :=
  if (doc.categories.getD index ⟨"", ""⟩).name = updated.name then
    { doc with categories := doc.categories.set index updated }
  else
    { doc with
      categories := doc.categories.set index updated,
      history := doc.history.map
        (migrateRecord (doc.categories.getD index ⟨"", ""⟩).name updated.name) }

theorem objGet_objDelete_self (k : String) (l : List (String × ℚ)) :
    objGet k (objDelete k l) = none := by
  induction l with
  | nil => rfl
  | cons p rest ih =>
    obtain ⟨a, b⟩ := p
    by_cases h : a = k
    · simp only [objDelete, List.filter_cons] at ih ⊢
      rw [(show (decide (a ≠ k)) = false by simp [h])]
      simpa using ih
    · simp only [objDelete, List.filter_cons] at ih ⊢
      rw [(show (decide (a ≠ k)) = true by simp [h])]
      simp only [if_true, objGet, h, if_false, ih]

/-- C7 (amended): the backend service's `updateCategory` merges the patch
into the category entry but never touches history — a history point that
recorded a balance under the old name keeps it under the old name — while
the frontend Data page's `updateCategory` does migrate: on a real rename it
maps every history record, and each record that held a balance under the
old name holds exactly that balance under the new name afterwards, with the
old key removed. -/
theorem updateCategory_migration_spec (doc : FinancesData) (categoryName : String)
    (updates : CategoryPatch) (nowIso : String) (doc2 : FinancesData) (index : Nat)
    (updated : FinanceCategory) (r : FinanceHistoryPoint) (v : ℚ) :
    (∀ d', FinancesDataService.updateCategory doc categoryName updates nowIso = Except.ok d' →
      d'.history = doc.history) ∧
    ((doc2.categories.getD index ⟨"", ""⟩).name ≠ updated.name →
      (dataPageUpdateCategory doc2 index updated).history =
        doc2.history.map (migrateRecord (doc2.categories.getD index ⟨"", ""⟩).name updated.name)) ∧
    (∀ oldName newName : String, oldName ≠ newName →
      objGet oldName r.data = some v →
      objGet newName (migrateRecord oldName newName r).data = some v ∧
      objGet oldName (migrateRecord oldName newName r).data = none) := by
  refine ⟨?_, ?_, ?_⟩
  · intro d' hd
    unfold FinancesDataService.updateCategory at hd
    cases hfi : doc.categories.findIdx? (fun c => c.name = categoryName) with
    | none => rw [hfi] at hd; exact Except.noConfusion hd
    | some i =>
      rw [hfi] at hd
      have := Except.ok.inj hd
      rw [← this]
  · intro hne
    unfold dataPageUpdateCategory
    rw [if_neg hne]
  · intro oldName newName hne hv
    unfold migrateRecord
    rw [hv]
    simp only [Option.isSome_some, if_true]
    constructor
    · rw [objGet_objDelete_ne newName oldName _ hne]
      simp only [Option.getD_some]
      exact objGet_objSet_self newName v r.data
    · exact objGet_objDelete_self oldName _

theorem updateCategory_migration_spec_witness :
    (FinancesDataService.updateCategory
        ⟨[⟨"A", "#FF0000"⟩], [⟨"2024-01-01", [("A", 100)]⟩], some "x"⟩
        "A" ⟨some "B", none⟩ "t").map FinancesData.history =
      Except.ok [⟨"2024-01-01", [("A", 100)]⟩] ∧
    objGet "B" (migrateRecord "A" "B" ⟨"2024-01-01", [("A", 100)]⟩).data = some 100 := by
  constructor
  · have h := (updateCategory_migration_spec
      ⟨[⟨"A", "#FF0000"⟩], [⟨"2024-01-01", [("A", 100)]⟩], some "x"⟩ "A" ⟨some "B", none⟩ "t"
      ⟨[], [], none⟩ 0 ⟨"", ""⟩ ⟨"", []⟩ 0).1
      ⟨[⟨"B", "#FF0000"⟩], [⟨"2024-01-01", [("A", 100)]⟩], some "t"⟩ rfl
    rw [(show FinancesDataService.updateCategory
        ⟨[⟨"A", "#FF0000"⟩], [⟨"2024-01-01", [("A", 100)]⟩], some "x"⟩ "A" ⟨some "B", none⟩ "t" =
        Except.ok ⟨[⟨"B", "#FF0000"⟩], [⟨"2024-01-01", [("A", 100)]⟩], some "t"⟩ from rfl)]
    rw [Except.map, h]
  · exact ((updateCategory_migration_spec ⟨[], [], none⟩ "" ⟨none, none⟩ ""
      ⟨[], [], none⟩ 0 ⟨"", ""⟩ ⟨"2024-01-01", [("A", 100)]⟩ 100).2.2 "A" "B"
      (by decide) (by decide)).1

/-- C7 (counterexample): renaming category `A` to `B` through the backend
service leaves the history point's balance recorded under the old key `A`
and nothing under `B`, so the rename does not migrate history. -/
theorem updateCategory_no_migration_counterexample :
    FinancesDataService.updateCategory
        ⟨[⟨"A", "#FF0000"⟩], [⟨"2024-01-01", [("A", 100)]⟩], some "x"⟩
        "A" ⟨some "B", none⟩ "t" =
      Except.ok ⟨[⟨"B", "#FF0000"⟩], [⟨"2024-01-01", [("A", 100)]⟩], some "t"⟩ ∧
    objGet "B" [("A", (100:ℚ))] = none ∧
    objGet "A" [("A", (100:ℚ))] = some 100 := by
  refine ⟨rfl, by decide, by decide⟩

/-- C6 (amended): `addHistoryPoint` restores ascending order whenever it
inserts a new date (it re-sorts the whole list) and preserves an already
ascending order on a same-date upsert; the `PUT /data` endpoint, by
contrast, persists the request body verbatim after schema validation — it
never re-sorts, so ordering after a whole-document write holds only when
the client sent ordered history (the Data page sorts before saving). -/
theorem historyOrdering_spec (doc : FinancesData) (hp : FinanceHistoryPoint) (nowIso : String) :
    (doc.history.any (fun p => p.date = hp.date) = false →
      historyAscending (FinancesDataService.addHistoryPoint doc hp nowIso).history) ∧
    (historyAscending doc.history →
      historyAscending (FinancesDataService.addHistoryPoint doc hp nowIso).history) ∧
    (∀ body : FinancesData, financesDataValid body = true → putDataEndpoint body = some body) := by
  refine ⟨?_, ?_, ?_⟩
  · intro h
    unfold FinancesDataService.addHistoryPoint
    rw [if_neg (by rw [h]; exact Bool.false_ne_true)]
    exact List.sorted_insertionSort _ _
  · intro h
    unfold FinancesDataService.addHistoryPoint
    by_cases hf : doc.history.any (fun p => p.date = hp.date)
    · rw [if_pos hf]
      exact pairwise_replaceFirstByDate doc.history hp h
    · rw [if_neg hf]
      exact List.sorted_insertionSort _ _
  · intro body hv
    unfold putDataEndpoint
    rw [if_pos hv]

theorem historyOrdering_spec_witness :
    historyAscending (FinancesDataService.addHistoryPoint
      ⟨[⟨"A", "#FF0000"⟩], [⟨"2024-03-01", [("A", 1)]⟩], some "x"⟩
      ⟨"2024-01-01", [("A", 2)]⟩ "t").history ∧
    putDataEndpoint ⟨[⟨"A", "#FF0000"⟩], [⟨"2024-01-01", [("A", 1)]⟩], some "x"⟩ =
      some ⟨[⟨"A", "#FF0000"⟩], [⟨"2024-01-01", [("A", 1)]⟩], some "x"⟩ :=
  ⟨(historyOrdering_spec ⟨[⟨"A", "#FF0000"⟩], [⟨"2024-03-01", [("A", 1)]⟩], some "x"⟩
      ⟨"2024-01-01", [("A", 2)]⟩ "t").1 (by decide),
   (historyOrdering_spec ⟨[], [], none⟩ ⟨"", []⟩ "").2.2
      ⟨[⟨"A", "#FF0000"⟩], [⟨"2024-01-01", [("A", 1)]⟩], some "x"⟩ (by decide)⟩

/-- C6 (counterexample): a schema-valid document whose history is listed in
descending date order passes the `PUT /data` endpoint and is persisted
verbatim, so the persisted history after this mutation is not ascending by
date. -/
theorem putData_unsorted_counterexample :
    putDataEndpoint ⟨[⟨"A", "#FF0000"⟩],
        [⟨"2024-02-01", [("A", 1)]⟩, ⟨"2024-01-01", [("A", 2)]⟩], some "x"⟩ =
      some ⟨[⟨"A", "#FF0000"⟩],
        [⟨"2024-02-01", [("A", 1)]⟩, ⟨"2024-01-01", [("A", 2)]⟩], some "x"⟩ ∧
    ¬ historyAscending [⟨"2024-02-01", [("A", 1)]⟩, ⟨"2024-01-01", [("A", 2)]⟩] := by
  constructor
  · rfl
  · intro h
    unfold historyAscending at h
    rw [List.pairwise_cons] at h
    have := h.1 ⟨"2024-01-01", [("A", 2)]⟩ (List.mem_singleton.mpr rfl)
    revert this
    decide

/-- C10: adding a category whose name already exists raises the
duplicate-category error with the stored document unchanged (no write
happens on the error path), and the add-category operation preserves
category-name uniqueness in every case. -/
theorem addCategory_duplicate_spec (stored : FinancesData) (category : FinanceCategory)
    (nowIso : String) :
    (category.name ∈ stored.categories.map FinanceCategory.name →
      FinancesDataService.addCategoryStep stored category nowIso =
        (stored, some ServiceError.duplicateCategory)) ∧
    ((stored.categories.map FinanceCategory.name).Nodup →
      ((FinancesDataService.addCategoryStep stored category nowIso).1.categories.map
        FinanceCategory.name).Nodup) := by
  constructor
  · intro hmem
    obtain ⟨c, hc, hname⟩ := List.mem_map.mp hmem
    unfold FinancesDataService.addCategoryStep FinancesDataService.addCategory
    rw [if_pos (List.any_eq_true.mpr ⟨c, hc, by rw [hname]; exact decide_eq_true rfl⟩)]
  · intro hnd
    unfold FinancesDataService.addCategoryStep FinancesDataService.addCategory
    by_cases hdup : stored.categories.any (fun c => c.name = category.name)
    · rw [if_pos hdup]
      exact hnd
    · rw [if_neg hdup]
      simp only [List.map_append, List.map_cons, List.map_nil]
      rw [List.nodup_append]
      refine ⟨hnd, List.nodup_singleton _, ?_⟩
      intro a ha hb
      rw [List.mem_singleton] at hb
      subst hb
      obtain ⟨c, hc, hname⟩ := List.mem_map.mp ha
      apply hdup
      exact List.any_eq_true.mpr ⟨c, hc, by rw [hname]; exact decide_eq_true rfl⟩

theorem addCategory_duplicate_spec_witness :
    FinancesDataService.addCategoryStep ⟨[⟨"A", "#FF0000"⟩], [], some "x"⟩ ⟨"A", "#00FF00"⟩ "t" =
      (⟨[⟨"A", "#FF0000"⟩], [], some "x"⟩, some ServiceError.duplicateCategory) ∧
    ((FinancesDataService.addCategoryStep ⟨[⟨"A", "#FF0000"⟩], [], some "x"⟩
        ⟨"B", "#00FF00"⟩ "t").1.categories.map FinanceCategory.name).Nodup :=
  ⟨(addCategory_duplicate_spec ⟨[⟨"A", "#FF0000"⟩], [], some "x"⟩ ⟨"A", "#00FF00"⟩ "t").1
      (by decide),
   (addCategory_duplicate_spec ⟨[⟨"A", "#FF0000"⟩], [], some "x"⟩ ⟨"B", "#00FF00"⟩ "t").2
      (by decide)⟩

/-!
Breakdown endpoint (from the finances router's `GET /breakdown`): the
specification's `computeBreakdown(categories, latestFilteredPoint)`.
-/

/-- One `{ category, value, color }` breakdown entry. -/
structure BreakdownEntry where
  category : String
  value : ℚ
  color : String
deriving DecidableEq, Repr

/-- Embedding of the breakdown computation on the latest filtered record:
one entry per category in the category list's order with
`latestRecord.data[category.name] || 0`, plus the reduce-sum as the total. -/
def computeBreakdown (categories : List FinanceCategory)
    (latestRecord : FinanceHistoryPoint) : List BreakdownEntry × ℚ :=
  ((categories.map fun c =>
      BreakdownEntry.mk c.name ((objGet c.name latestRecord.data).getD 0) c.color),
   (categories.map fun c =>
      BreakdownEntry.mk c.name ((objGet c.name latestRecord.data).getD 0) c.color).foldl
     (fun s it => s + it.value) 0)

theorem foldl_add_value (l : List BreakdownEntry) (a : ℚ) :
    l.foldl (fun s it => s + it.value) a = a + (l.map BreakdownEntry.value).sum := by
  induction l generalizing a with
  | nil => simp
  | cons x xs ih => simp [ih, add_assoc]

/-- C9: the breakdown has one entry per category, in the category list's
order, each carrying the category's name, its balance at the latest
filtered point (0 when the category is absent from the point's data), and
the category's color; the total is the sum of all entry values. -/
theorem computeBreakdown_spec (categories : List FinanceCategory)
    (latestRecord : FinanceHistoryPoint) :
    (computeBreakdown categories latestRecord).1.length = categories.length ∧
    (∀ i : Nat, i < categories.length →
      (computeBreakdown categories latestRecord).1.getD i ⟨"", 0, ""⟩ =
        ⟨(categories.getD i ⟨"", ""⟩).name,
         (objGet (categories.getD i ⟨"", ""⟩).name latestRecord.data).getD 0,
         (categories.getD i ⟨"", ""⟩).color⟩) ∧
    (computeBreakdown categories latestRecord).2 =
      ((computeBreakdown categories latestRecord).1.map BreakdownEntry.value).sum := by
  refine ⟨by unfold computeBreakdown; rw [List.length_map], ?_, ?_⟩
  · intro i hi
    unfold computeBreakdown
    rw [List.getD_eq_getElem?_getD,
      List.getElem?_eq_getElem (by rw [List.length_map]; exact hi),
      Option.getD_some, List.getElem_map,
      List.getD_eq_getElem?_getD categories, List.getElem?_eq_getElem hi, Option.getD_some]
  · unfold computeBreakdown
    rw [foldl_add_value, zero_add]

theorem computeBreakdown_spec_witness :
    (computeBreakdown [⟨"A", "#FF0000"⟩, ⟨"B", "#00FF00"⟩]
        ⟨"2024-01-01", [("A", 100), ("B", 50)]⟩).1.getD 0 ⟨"", 0, ""⟩ =
      ⟨"A", (objGet "A" [("A", (100:ℚ)), ("B", 50)]).getD 0, "#FF0000"⟩ ∧
    (computeBreakdown [⟨"A", "#FF0000"⟩, ⟨"B", "#00FF00"⟩]
        ⟨"2024-01-01", [("A", 100), ("B", 50)]⟩).2 = 150 := by
  constructor
  · exact (computeBreakdown_spec [⟨"A", "#FF0000"⟩, ⟨"B", "#00FF00"⟩]
      ⟨"2024-01-01", [("A", 100), ("B", 50)]⟩).2.1 0 (by decide)
  · rw [(computeBreakdown_spec [⟨"A", "#FF0000"⟩, ⟨"B", "#00FF00"⟩]
      ⟨"2024-01-01", [("A", 100), ("B", 50)]⟩).2.2]
    have hAB : ("A" : String) ≠ "B" := by decide
    have hBA : ("B" : String) ≠ "A" := by decide
    simp [computeBreakdown, objGet, hAB, hBA]
    norm_num

/-!
Projections route (from `routes/projections.ts`, `GET /data`): the no-data
and insufficient-data error conditions around the calculation-period
filter.
-/

/-- JavaScript `>=` on two `Date` values: false when either is Invalid. -/
def jsGe (a b : Option Int) : Bool :=
  match a, b with
  | some x, some y => decide (y ≤ x)
  | _, _ => false

/-- Outcome of the projections route's data-sufficiency checks: 404
`NO_DATA`, 400 `INSUFFICIENT_DATA`, or the filtered-and-sorted history the
projection computation proceeds with. -/
inductive ProjectionsOutcome where
  | noData
  | insufficientData
  | success (filtered : List FinanceHistoryPoint)
deriving DecidableEq, Repr

/-- Embedding of the route's guards: empty history is `NO_DATA`; otherwise
records dated on/after `new Date(year, month − calculationPeriodMonths,
date)` are kept and sorted ascending, and fewer than 2 survivors is
`INSUFFICIENT_DATA`. -/
def projectionsDataEndpoint (tz : Int) (now : JsNow) (calculationPeriodMonths : Int)
    (history : List FinanceHistoryPoint) : ProjectionsOutcome :=
  if history.isEmpty then ProjectionsOutcome.noData
  else
    if (List.insertionSort (fun a b => jsTimeKey a ≤ jsTimeKey b)
        (history.filter fun r => jsGe (parseJsDate r.date)
          (some (localEpochMs tz now.year (now.month - calculationPeriodMonths) now.day)))).length
        < 2 then
      ProjectionsOutcome.insufficientData
    else
      ProjectionsOutcome.success
        (List.insertionSort (fun a b => jsTimeKey a ≤ jsTimeKey b)
          (history.filter fun r => jsGe (parseJsDate r.date)
            (some (localEpochMs tz now.year (now.month - calculationPeriodMonths) now.day))))

/-- C5: the projections route fails with the no-data condition exactly when
the history is empty before filtering, and with the distinct
insufficient-data condition exactly when the history is nonempty but fewer
than 2 points remain after the calculation-period filter; the two failure
outcomes are different constructors, neither carrying a result. -/
theorem projectionsData_error_conditions (tz : Int) (now : JsNow) (cpm : Int)
    (history : List FinanceHistoryPoint) :
    (projectionsDataEndpoint tz now cpm history = ProjectionsOutcome.noData ↔ history = []) ∧
    (projectionsDataEndpoint tz now cpm history = ProjectionsOutcome.insufficientData ↔
      history ≠ [] ∧
      (history.filter fun r => jsGe (parseJsDate r.date)
        (some (localEpochMs tz now.year (now.month - cpm) now.day))).length < 2) ∧
    ProjectionsOutcome.noData ≠ ProjectionsOutcome.insufficientData := by
  unfold projectionsDataEndpoint
  rw [(List.perm_insertionSort (fun a b => jsTimeKey a ≤ jsTimeKey b)
    (history.filter fun r => jsGe (parseJsDate r.date)
      (some (localEpochMs tz now.year (now.month - cpm) now.day)))).length_eq]
  by_cases he : history.isEmpty
  · have hnil : history = [] := List.isEmpty_iff.mp he
    subst hnil
    rw [if_pos (show ([] : List FinanceHistoryPoint).isEmpty = true from rfl)]
    refine ⟨by simp, ?_, by intro h; cases h⟩
    constructor
    · intro h; exact ProjectionsOutcome.noConfusion h
    · rintro ⟨hne, -⟩; exact absurd rfl hne
  · have hne : history ≠ [] := fun h => he (by rw [h]; rfl)
    rw [if_neg he]
    by_cases hl : (history.filter fun r => jsGe (parseJsDate r.date)
        (some (localEpochMs tz now.year (now.month - cpm) now.day))).length < 2
    · rw [if_pos hl]
      refine ⟨?_, ?_, by intro h; cases h⟩
      · constructor
        · intro h; exact ProjectionsOutcome.noConfusion h
        · intro h; exact absurd h hne
      · simp [hne, hl]
    · rw [if_neg hl]
      refine ⟨?_, ?_, by intro h; cases h⟩
      · constructor
        · intro h; exact ProjectionsOutcome.noConfusion h
        · intro h; exact absurd h hne
      · constructor
        · intro h; exact ProjectionsOutcome.noConfusion h
        · rintro ⟨-, h⟩; exact absurd h hl

/-!
Filter-period monotonicity and the invalid-bound behaviour of the history
filter.
-/

theorem localEpochMs_one_year_le_three_months (tz y m d : Int) (h0 : 0 ≤ m) (h1 : m ≤ 11) :
    localEpochMs tz (y - 1) m d ≤ localEpochMs tz y (m - 3) d := by
  unfold localEpochMs
  have hmd := makeDay_one_year_le_three_months y m d h0 h1
  have h2 : makeDay (y - 1) m d * 86400000 ≤ makeDay y (m - 3) d * 86400000 :=
    mul_le_mul_of_nonneg_right hmd (by norm_num)
  omega

theorem filterHistoryData_threeMonths_eq (tz : Int) (now : JsNow)
    (history : List FinanceHistoryPoint) :
    filterHistoryData tz now history ⟨none, none, some FilterPeriod.threeMonths⟩ =
      history.filter (fun r =>
        !(jsLt (parseJsDate r.date) (some (localEpochMs tz now.year (now.month - 3) now.day))) &&
        !(jsGt (parseJsDate r.date) (some now.nowMs))) := rfl

theorem filterHistoryData_oneYear_eq (tz : Int) (now : JsNow)
    (history : List FinanceHistoryPoint) :
    filterHistoryData tz now history ⟨none, none, some FilterPeriod.oneYear⟩ =
      history.filter (fun r =>
        !(jsLt (parseJsDate r.date) (some (localEpochMs tz (now.year - 1) now.month now.day))) &&
        !(jsGt (parseJsDate r.date) (some now.nowMs))) := rfl

theorem filterHistoryData_all_eq (tz : Int) (now : JsNow)
    (history : List FinanceHistoryPoint) :
    filterHistoryData tz now history ⟨none, none, some FilterPeriod.all⟩ = history := rfl

/-- C8: for the same history and the same clock, the dates surviving the
3-months period filter all survive the 1-year period filter, and the dates
surviving the 1-year filter all appear in the unfiltered list the 'all'
period returns (the month bounds are JavaScript's `getMonth()` range). -/
theorem filterPeriod_monotone (tz : Int) (now : JsNow) (history : List FinanceHistoryPoint)
    (h0 : 0 ≤ now.month) (h1 : now.month ≤ 11) :
    ((filterHistoryData tz now history ⟨none, none, some FilterPeriod.threeMonths⟩).map
        FinanceHistoryPoint.date ⊆
      (filterHistoryData tz now history ⟨none, none, some FilterPeriod.oneYear⟩).map
        FinanceHistoryPoint.date) ∧
    ((filterHistoryData tz now history ⟨none, none, some FilterPeriod.oneYear⟩).map
        FinanceHistoryPoint.date ⊆
      (filterHistoryData tz now history ⟨none, none, some FilterPeriod.all⟩).map
        FinanceHistoryPoint.date) := by
  have hc : localEpochMs tz (now.year - 1) now.month now.day ≤
      localEpochMs tz now.year (now.month - 3) now.day :=
    localEpochMs_one_year_le_three_months tz now.year now.month now.day h0 h1
  rw [filterHistoryData_threeMonths_eq, filterHistoryData_oneYear_eq, filterHistoryData_all_eq]
  constructor
  · apply List.map_subset
    intro r hr
    rw [List.mem_filter] at hr ⊢
    refine ⟨hr.1, ?_⟩
    have hp := hr.2
    rw [Bool.and_eq_true] at hp ⊢
    refine ⟨?_, hp.2⟩
    cases hd : parseJsDate r.date with
    | none => rfl
    | some x =>
      have h3 := hp.1
      rw [hd] at h3
      simp only [jsLt, Bool.not_eq_eq_eq_not, Bool.not_true, decide_eq_false_iff_not,
        not_lt] at h3 ⊢
      omega
  · apply List.map_subset
    intro r hr
    exact (List.mem_filter.mp hr).1

theorem filterPeriod_monotone_witness :
    (filterHistoryData 0 ⟨2024, 5, 15, 1718409600000⟩ [⟨"2024-05-01", []⟩]
        ⟨none, none, some FilterPeriod.threeMonths⟩).map FinanceHistoryPoint.date ⊆
      (filterHistoryData 0 ⟨2024, 5, 15, 1718409600000⟩ [⟨"2024-05-01", []⟩]
        ⟨none, none, some FilterPeriod.oneYear⟩).map FinanceHistoryPoint.date :=
  (filterPeriod_monotone 0 ⟨2024, 5, 15, 1718409600000⟩ [⟨"2024-05-01", []⟩]
    (by decide) (by decide)).1

theorem jsLt_none_right (a : Option Int) : jsLt a none = false := by
  cases a <;> rfl

theorem jsGt_none_right (a : Option Int) : jsGt a none = false := by
  cases a <;> rfl

theorem filterHistoryData_from_eq (tz : Int) (now : JsNow)
    (history : List FinanceHistoryPoint) (s : String) :
    filterHistoryData tz now history ⟨some s, none, none⟩ =
      history.filter (fun r => !(jsLt (parseJsDate r.date) (parseJsDate s)) && true) := rfl

theorem filterHistoryData_to_eq (tz : Int) (now : JsNow)
    (history : List FinanceHistoryPoint) (s : String) :
    filterHistoryData tz now history ⟨none, some s, none⟩ =
      history.filter (fun r => true && !(jsGt (parseJsDate r.date) (parseJsDate s))) := rfl

/-- C3 (amended): a `from`/`to` bound failing the `YYYY-MM-DD` regex is
rejected by `DateFilterSchema` before any comparison, but a regex-matching
yet calendar-invalid bound passes validation, parses to an Invalid Date
whose comparisons are all false, and the filter then proceeds exactly as if
that bound had not been supplied. -/
theorem dateFilter_validation_spec (tz : Int) (now : JsNow) (data : FinancesData) (s : String) :
    (matchesYMDPattern s = false →
      historyEndpoint tz now data ⟨some s, none, none⟩ = none ∧
      historyEndpoint tz now data ⟨none, some s, none⟩ = none) ∧
    (parseJsDate s = none →
      filterHistoryData tz now data.history ⟨some s, none, none⟩ = data.history ∧
      filterHistoryData tz now data.history ⟨none, some s, none⟩ = data.history) := by
  constructor
  · intro hm
    constructor
    · have ha : dateFilterSchemaAccepts ⟨some s, none, none⟩ = false := by
        show (matchesYMDPattern s && true) = false
        rw [hm]
        rfl
      unfold historyEndpoint
      rw [ha]
      simp
    · have ha : dateFilterSchemaAccepts ⟨none, some s, none⟩ = false := by
        show (true && matchesYMDPattern s) = false
        rw [hm]
        rfl
      unfold historyEndpoint
      rw [ha]
      simp
  · intro hp
    constructor
    · rw [filterHistoryData_from_eq]
      apply List.filter_eq_self.mpr
      intro r hr
      rw [hp, jsLt_none_right]
      rfl
    · rw [filterHistoryData_to_eq]
      apply List.filter_eq_self.mpr
      intro r hr
      rw [hp, jsGt_none_right]
      rfl

theorem dateFilter_validation_spec_witness :
    historyEndpoint 0 ⟨2024, 0, 1, 0⟩ ⟨[], [], none⟩ ⟨some "bogus", none, none⟩ = none ∧
    filterHistoryData 0 ⟨2024, 0, 1, 0⟩ [⟨"2020-01-01", []⟩] ⟨some "2024-02-31", none, none⟩ =
      [⟨"2020-01-01", []⟩] :=
  ⟨((dateFilter_validation_spec 0 ⟨2024, 0, 1, 0⟩ ⟨[], [], none⟩ "bogus").1 (by decide)).1,
   ((dateFilter_validation_spec 0 ⟨2024, 0, 1, 0⟩ ⟨[], [⟨"2020-01-01", []⟩], none⟩
      "2024-02-31").2 (by decide)).1⟩

/-- C3 (counterexample): the bound `2024-02-31` matches the schema's regex,
so validation passes, yet it is not calendar-valid; it parses to an Invalid
Date whose comparisons are all false, and `GET /history` returns exactly
what it returns with no `from` bound at all — the record from 2020, which a
working 2024 lower bound would have excluded, is kept. -/
theorem dateFilter_invalid_bound_counterexample :
    dateFilterSchemaAccepts ⟨some "2024-02-31", none, none⟩ = true ∧
    parseJsDate "2024-02-31" = none ∧
    historyEndpoint 0 ⟨2024, 5, 15, 0⟩ ⟨[], [⟨"2020-01-01", []⟩], none⟩
        ⟨some "2024-02-31", none, none⟩ =
      historyEndpoint 0 ⟨2024, 5, 15, 0⟩ ⟨[], [⟨"2020-01-01", []⟩], none⟩ ⟨none, none, none⟩ := by
  refine ⟨by decide, by decide, by decide⟩

theorem projectionsData_error_conditions_witness :
    projectionsDataEndpoint 0 ⟨2024, 5, 15, 0⟩ 12 [] = ProjectionsOutcome.noData :=
  (projectionsData_error_conditions 0 ⟨2024, 5, 15, 0⟩ 12 []).1.mpr rfl
